import Mathlib

/-!
Verification of the token-to-markup enrichment pipeline of `src/highlight.rs`
(rustw syntax highlighting).

Shallow embedding conventions:
* Rust `Result<T, E>` values are only ever consumed through `.ok()`, so the
  analysis backend is modelled with `Option`-returning query functions.
* File-system paths (`Path` / `PathBuf`) are modelled as lists of components
  (an absolute path carries a leading empty component, so that joining with
  a slash reproduces the usual rendering, mirroring `Path::components`).
* `Path::canonicalize` is a file-system call; it is passed in as a parameter
  `canon : String → Option (List String)` (`none` models an `Err` result,
  on which the source calls `.unwrap()`, i.e. panics).  A panic is modelled
  by propagating `none` through the render pass.
* The `HashMap` path cache is modelled as an association list keyed by the
  raw file name.
* `span_from_locs` additionally returns how many times it invoked `canon`
  (0 or 1), instrumenting the "touches the filesystem" observable.
* The borrowed fields of the Rust `Highlighter` struct (`analysis`,
  `codemap`, `project_path`) are immutable during a pass and are passed as
  parameters; the mutable state (`buf`, `path_cache`) forms the structure.
-/

namespace Rustw

/-- Path model: a list of components.  `pathDisplay` renders it the way Rust
displays a path built from those components (absolute paths are represented
with a leading empty component). -/
def pathDisplay (p : List String) : String :=
  String.intercalate ("/") p

/-- Models `Path::strip_prefix`: succeeds iff the base's components are a
prefix of the path's, and returns the remaining components. -/
def stripPrefixPath (p base : List String) : Option (List String) :=
  if base.isPrefixOf p then some (p.drop base.length) else none

/-- The `Span` struct from rls-analysis as used by `highlight.rs`: canonical
file path plus 0-based line/column extent. -/
structure Span where
  file_name : List String
  line_start : Nat
  column_start : Nat
  line_end : Nat
  column_end : Nat
deriving DecidableEq, Repr

/-- A lexer coordinate record (`syntax::codemap::Loc`): raw file name,
1-based line, 0-based column. -/
structure Loc where
  file_name : String
  line : Nat
  col : Nat
deriving DecidableEq, Repr

/-- The byte extent of a token (`TokenAndSpan`'s `sp.lo.0` / `sp.hi.0`). -/
structure TokenAndSpan where
  lo : Nat
  hi : Nat
deriving DecidableEq, Repr

/-- The analysis backend (`AnalysisHost`), a black-box query service.  Every
call site in `highlight.rs` applies `.ok()` to the `Result`, so each query is
modelled as `Option`-valued. -/
structure AnalysisHost where
  goto_def : Span → Option Span
  show_type : Span → Option String
  docs : Span → Option String
  doc_url : Span → Option String
  src_url : Span → Option String
  id : Span → Option Nat

/-- Token classes from `rustdoc::html::highlight::Class`; only `None`,
`Ident` and `Op` are distinguished by the pipeline, every other class is
carried by its rendered class string. -/
inductive Class where
  | none
  | ident
  | op
  | other (s : String)
deriving DecidableEq, Repr

/-- The `rustdoc_class` rendering of a token class. -/
def Class.rustdoc_class : Class → String
  | Class.none => ""
  | Class.ident => "ident"
  | Class.op => "op"
  | Class.other s => s

/-- Translation of `push_char` (highlight.rs:153-163): the escape text
emitted for one character of a title. -/
def push_char (c : Char) : String :=
  match c with
  | '>' => "&gt;"
  | '<' => "&lt;"
  | '&' => "&amp;"
  | '\'' => "&#39;"
  | '"' => "&quot;"
  | '\n' => "<br>"
  | c => String.singleton c

/-- Translation of `Highlighter::write_span` (highlight.rs:95-137), as a
function from the buffer before the call to the buffer after it; each
`write!` becomes an append, in source order. -/
def write_span (buf : String) (klass : Class) (text : String)
    (title : Option String) (extra_class : Option String) (id : Option String)
    (link : Option String) (doc_link : Option String) (src_link : Option String)
    (extra : Option String) : String :=
  let buf := buf ++ "<span class='" ++ klass.rustdoc_class
  let buf := match extra_class with
    | some s => buf ++ s
    | Option.none => buf
  let buf := if link.isSome || doc_link.isSome then buf ++ " src_link" else buf
  let buf := buf ++ "'"
  let buf := match id with
    | some s => buf ++ " id='" ++ s ++ "'"
    | Option.none => buf
  let buf := match title with
    | some s => (s.data.foldl (fun b c => b ++ push_char c) (buf ++ " title='")) ++ "'"
    | Option.none => buf
  let buf := match doc_link with
    | some s => buf ++ " doc_url='" ++ s ++ "'"
    | Option.none => buf
  let buf := match src_link with
    | some s => buf ++ " src_url='" ++ s ++ "'"
    | Option.none => buf
  let buf := match link with
    | some s => buf ++ " link='" ++ s ++ "'"
    | Option.none => buf
  let buf := match extra with
    | some s => buf ++ " " ++ s
    | Option.none => buf
  buf ++ ">" ++ text ++ "</span>"

/-- The per-pass path cache: raw file name to canonical path. -/
abbrev PathCache := List (String × List String)

/-- Translation of `Highlighter::span_from_locs` (highlight.rs:139-150).
`canon` models `Path::canonicalize`; its `Err` case is hit by `.unwrap()`
in the source, i.e. the pass panics, modelled as `none`.  The second
component counts the `canon` invocations (the filesystem touches). -/
def span_from_locs (canon : String → Option (List String)) (cache : PathCache)
    (lo hi : Loc) : Option (Span × PathCache) × Nat :=
  match cache.lookup lo.file_name with
  | some p =>
    (some ({ file_name := p
             line_start := lo.line - 1
             column_start := lo.col
             line_end := hi.line - 1
             column_end := hi.col }, cache), 0)
  | Option.none =>
    match canon lo.file_name with
    | some p =>
      (some ({ file_name := p
               line_start := lo.line - 1
               column_start := lo.col
               line_end := hi.line - 1
               column_end := hi.col }, (lo.file_name, p) :: cache), 1)
    | Option.none => (Option.none, 1)

/-- Translation of `Highlighter::get_link` (highlight.rs:75-93). -/
def get_link (an : AnalysisHost) (project_path : List String) (span : Span) :
    Option String :=
  (an.goto_def span).bind (fun def_span =>
    if span = def_span then Option.none
    else
      let file_name := pathDisplay
        ((stripPrefixPath def_span.file_name project_path).getD def_span.file_name)
      some (file_name ++ ":" ++ toString (def_span.line_start + 1)
                      ++ ":" ++ toString (def_span.column_start + 1)
                      ++ ":" ++ toString (def_span.line_end + 1)
                      ++ ":" ++ toString (def_span.column_end + 1)))

/-- The arguments the identifier branch of `Highlighter::string`
(highlight.rs:179-209) computes and hands to `write_span`. -/
structure IdentArgs where
  title : Option String
  css_class : Option String
  link : Option String
  doc_link : Option String
  src_link : Option String
deriving DecidableEq, Repr

/-- Translation of the enrichment computation in the identifier branch of
`Highlighter::string` (highlight.rs:185-206): type/docs filtering and title
composition, link derivation with the `search:` fallback, and the class-id
suffix. -/
def identArgs (an : AnalysisHost) (project_path : List String) (span : Span) :
    IdentArgs :=
  let ty := (an.show_type span).bind (fun s => if s.isEmpty then Option.none else some s)
  let docs := (an.docs span).bind (fun s => if s.isEmpty then Option.none else some s)
  let title := match ty, docs with
    | some t, some d => some (t ++ "\n\n" ++ d)
    | some t, Option.none => some t
    | Option.none, some d => some d
    | Option.none, Option.none => Option.none
  let link := get_link an project_path span
  let doc_link := an.doc_url span
  let src_link := an.src_url span
  match an.id span with
  | some i =>
    { title := title
      css_class := some (" class_id class_id_" ++ toString i)
      link := if link.isNone then some ("search:" ++ toString i) else link
      doc_link := doc_link
      src_link := src_link }
  | Option.none =>
    { title := title
      css_class := Option.none
      link := link
      doc_link := doc_link
      src_link := src_link }

/-- The free-form `location` attribute computed in the glob branch of
`Highlighter::string` (highlight.rs:221): the lexer's 1-based line as-is
and the 0-based column plus one, with the format string's trailing
doubled apostrophe. -/
def globExtra (lo : Loc) : String :=
  "location='" ++ toString lo.line ++ ":" ++ toString (lo.col + 1) ++ "''"

/-- The mutable state of the Rust `Highlighter`: the output buffer and the
path cache (the borrowed `analysis`, `codemap`, `project_path` fields are
passed as parameters). -/
structure Highlighter where
  buf : String
  path_cache : PathCache
deriving DecidableEq, Repr

/-- Translation of `<Highlighter as Writer>::string` (highlight.rs:174-231).
`codemap` models `CodeMap::lookup_char_pos`.  `none` models a panic of the
pass (the `canonicalize().unwrap()` inside `span_from_locs`). -/
def Highlighter.string (an : AnalysisHost) (project_path : List String)
    (codemap : Nat → Loc) (canon : String → Option (List String))
    (h : Highlighter) (text : String) (klass : Class)
    (tas : Option TokenAndSpan) : Option Highlighter :=
  match klass with
  | Class.none => some { h with buf := h.buf ++ text }
  | Class.ident =>
    match tas with
    | some t =>
      match span_from_locs canon h.path_cache (codemap t.lo) (codemap t.hi) with
      | (some (span, cache), _) =>
        let a := identArgs an project_path span
        let buf2 := write_span h.buf Class.ident text a.title a.css_class
          Option.none a.link a.doc_link a.src_link Option.none
        some { buf := buf2, path_cache := cache }
      | (Option.none, _) => Option.none
    | Option.none =>
      let buf2 := write_span h.buf Class.ident text Option.none
        Option.none Option.none Option.none Option.none Option.none Option.none
      some { h with buf := buf2 }
  | Class.op =>
    if text = "*" then
      match tas with
      | some t =>
        let lo := codemap t.lo
        match span_from_locs canon h.path_cache lo (codemap t.hi) with
        | (some (span, cache), _) =>
          let buf2 := write_span h.buf Class.op text (an.show_type span)
            (some (" glob")) Option.none Option.none Option.none Option.none
            (some (globExtra lo))
          some { buf := buf2, path_cache := cache }
        | (Option.none, _) => Option.none
      | Option.none =>
        let buf2 := write_span h.buf Class.op text Option.none
          Option.none Option.none Option.none Option.none Option.none Option.none
        some { h with buf := buf2 }
    else
      let buf2 := write_span h.buf Class.op text Option.none
        Option.none Option.none Option.none Option.none Option.none Option.none
      some { h with buf := buf2 }
  | Class.other s =>
    let buf2 := write_span h.buf (Class.other s) text Option.none
      Option.none Option.none Option.none Option.none Option.none Option.none
    some { h with buf := buf2 }

/-- One event of the externally produced classified token stream, as
delivered through the `rustdoc::html::highlight::Writer` trait. -/
inductive HEvent where
  | enter (klass : Class)
  | exit
  | str (text : String) (klass : Class) (tas : Option TokenAndSpan)

/-- Folding the event stream through the `Writer` implementation of
`Highlighter` (`enter_span`, `exit_span`, `string`). -/
def runEvents (an : AnalysisHost) (project_path : List String)
    (codemap : Nat → Loc) (canon : String → Option (List String))
    (h : Highlighter) : List HEvent → Option Highlighter
  | [] => some h
  | HEvent.enter k :: rest =>
    runEvents an project_path codemap canon
      { h with buf := h.buf ++ "<span class='" ++ k.rustdoc_class ++ "'>" } rest
  | HEvent.exit :: rest =>
    runEvents an project_path codemap canon
      { h with buf := h.buf ++ "</span>" } rest
  | HEvent.str text k tas :: rest =>
    match Highlighter.string an project_path codemap canon h text k tas with
    | some h2 => runEvents an project_path codemap canon h2 rest
    | Option.none => Option.none

/-- Translation of the top-level `highlight` function (highlight.rs:25-42):
fresh buffer and path cache, run the classified token stream, return the
buffer.  The tokenization itself is the external classifier, so the input
is that classifier's event stream. -/
def highlight (an : AnalysisHost) (project_path : List String)
    (codemap : Nat → Loc) (canon : String → Option (List String))
    (events : List HEvent) : Option String :=
  match runEvents an project_path codemap canon { buf := "", path_cache := [] } events with
  | some h => some h.buf
  | Option.none => Option.none

/-- An overlay range registered with `BasicHighlighter::span`
(highlight.rs:240-245). -/
structure SpanSpan where
  start_byte : Nat
  end_byte : Nat
  klass : String
  id : String
deriving DecidableEq, Repr

/-- The state of `BasicHighlighter` (highlight.rs:235-238). -/
structure BasicHighlighter where
  buf : String
  spans : List SpanSpan
deriving DecidableEq, Repr

/-- Translation of `BasicHighlighter::span` (highlight.rs:265-272):
registers an overlay range at the end of the sequence (`Vec::push`). -/
def BasicHighlighter.span (bh : BasicHighlighter) (start_b end_b : Nat)
    (klass id : String) : BasicHighlighter :=
  { bh with spans := bh.spans ++ [{ start_byte := start_b, end_byte := end_b,
                                    klass := klass, id := id }] }

/-- The overlay-matching loop of `BasicHighlighter::string`
(highlight.rs:290-299): iterate over the registered ranges in order and,
on every exact byte match, overwrite the chosen class suffix and id. -/
def overlayScan (spans : List SpanSpan) (lo hi : Nat) :
    Option String × Option String :=
  spans.foldl
    (fun acc s =>
      if s.start_byte = lo ∧ s.end_byte = hi then (some s.klass, some s.id) else acc)
    (Option.none, Option.none)

/-- Translation of `<BasicHighlighter as Writer>::string`
(highlight.rs:284-302). -/
def BasicHighlighter.string (bh : BasicHighlighter) (text : String)
    (klass : Class) (tas : Option TokenAndSpan) : BasicHighlighter :=
  let ec_id := match tas with
    | some t => overlayScan bh.spans t.lo t.hi
    | Option.none => (Option.none, Option.none)
  let buf2 := write_span bh.buf klass text Option.none ec_id.1 ec_id.2
    Option.none Option.none Option.none Option.none
  { bh with buf := buf2 }

/-! Specification-side helpers used to state the theorems (not translations
of source code): the per-character escape map as a list homomorphism, and
the rendering of each optional attribute. -/

/-- The escape text of a character list: one escape sequence per character,
in order. -/
def escapeChars : List Char → String
  | [] => ""
  | c :: cs => push_char c ++ escapeChars cs

/-- Rendering of an optional quoted attribute: `pre` is the text up to and
including the opening quote. -/
def attrOut (pre : String) (o : Option String) : String :=
  match o with
  | some s => pre ++ s ++ "'"
  | Option.none => ""

/-- Rendering of the optional escaped title attribute. -/
def titleOut (o : Option String) : String :=
  match o with
  | some s => " title='" ++ escapeChars s.data ++ "'"
  | Option.none => ""

/-- Rendering of the free-form extra attribute: a space, then the text
verbatim. -/
def extraOut (o : Option String) : String :=
  match o with
  | some s => " " ++ s
  | Option.none => ""

/-- Rendering of the optional extra-class suffix. -/
def classOut (o : Option String) : String := o.getD ""

/-! Concrete fixtures for the counterexamples and witnesses. -/

/-- Fixture: codemap of a one-token file, token byte 0 maps to line 2
column 4, byte 1 to line 2 column 7. -/
def c1_cm : Nat → Loc := fun n => if n = 0 then ⟨"f.rs", 2, 4⟩ else ⟨"f.rs", 2, 7⟩

/-- Fixture: canonicalizer resolving every raw name to /proj/f.rs. -/
def c1_canon : String → Option (List String) := fun _ => some ["", "proj", "f.rs"]

/-- Fixture: a backend whose goto_def answers every query with the query's
own span (every token is its own definition) and whose id query succeeds. -/
def c1_an : AnalysisHost :=
  { goto_def := fun s => some s
    show_type := fun _ => Option.none
    docs := fun _ => Option.none
    doc_url := fun _ => Option.none
    src_url := fun _ => Option.none
    id := fun _ => some 42 }

/-- Fixture: the span c1_cm and c1_canon reconstruct for the token. -/
def c1_span : Span := ⟨["", "proj", "f.rs"], 1, 4, 1, 7⟩

/-- Fixture: a codemap for the canonicalization-failure scenario. -/
def c2_cm : Nat → Loc := fun _ => ⟨"g.rs", 1, 0⟩

/-- Fixture: a backend all of whose queries fail. -/
def c2_an : AnalysisHost :=
  { goto_def := fun _ => Option.none
    show_type := fun _ => Option.none
    docs := fun _ => Option.none
    doc_url := fun _ => Option.none
    src_url := fun _ => Option.none
    id := fun _ => Option.none }

/-- Fixture: a canonicalizer that always succeeds. -/
def c2_canon_ok : String → Option (List String) := fun n => some [n]

/-- Fixture: two overlay ranges registered over the same byte range with
different class suffixes and ids. -/
def c3_bh : BasicHighlighter :=
  ((BasicHighlighter.mk ("") []).span 0 1 ("a") ("i1")).span 0 1 ("b") ("i2")

/-- Fixture: a backend whose type query answers with the empty string. -/
def c4_an : AnalysisHost :=
  { goto_def := fun _ => Option.none
    show_type := fun _ => some ("")
    docs := fun _ => Option.none
    doc_url := fun _ => Option.none
    src_url := fun _ => Option.none
    id := fun _ => Option.none }

/-- Fixture: codemap for the glob token of the empty-type scenario. -/
def c4_cm : Nat → Loc := fun n => if n = 0 then ⟨"f.rs", 2, 4⟩ else ⟨"f.rs", 2, 7⟩

/-- Fixture: canonicalizer for the empty-type scenario. -/
def c4_canon : String → Option (List String) := fun _ => some ["", "proj", "f.rs"]

/-- Fixture: a backend with a nonempty type and nonempty docs answer. -/
def c4w_an : AnalysisHost :=
  { goto_def := fun _ => Option.none
    show_type := fun _ => some ("T")
    docs := fun _ => some ("D")
    doc_url := fun _ => Option.none
    src_url := fun _ => Option.none
    id := fun _ => Option.none }

/-- Fixture: an arbitrary span for title-composition witnesses. -/
def c4w_span : Span := ⟨["x"], 0, 0, 0, 1⟩

/-- Fixture: a backend with a resolvable id but failing goto_def. -/
def c5_an : AnalysisHost :=
  { goto_def := fun _ => Option.none
    show_type := fun _ => Option.none
    docs := fun _ => Option.none
    doc_url := fun _ => Option.none
    src_url := fun _ => Option.none
    id := fun _ => some 7 }

/-- Fixture: an arbitrary span for the search-fallback witness. -/
def c5_span : Span := ⟨["x"], 0, 0, 0, 1⟩

/-- Fixture: a definition span lying inside the project root /proj. -/
def c8_ds : Span := ⟨["", "proj", "f.rs"], 0, 2, 0, 5⟩

/-- Fixture: a backend resolving every definition to c8_ds. -/
def c8_an : AnalysisHost :=
  { goto_def := fun _ => some c8_ds
    show_type := fun _ => Option.none
    docs := fun _ => Option.none
    doc_url := fun _ => Option.none
    src_url := fun _ => Option.none
    id := fun _ => Option.none }

/-- Fixture: the querying token's span, distinct from c8_ds. -/
def c8_span : Span := ⟨["", "proj", "main.rs"], 3, 0, 3, 1⟩

/-- Fixture: codemap of the glob-token scenario: byte 0 is line 5 column 2,
byte 1 is line 5 column 3. -/
def c10_cm : Nat → Loc := fun n => if n = 0 then ⟨"h.rs", 5, 2⟩ else ⟨"h.rs", 5, 3⟩

/-- Fixture: canonicalizer of the glob-token scenario. -/
def c10_canon : String → Option (List String) := fun _ => some ["", "p", "h.rs"]

/-- Fixture: a backend with a type answer for the glob token. -/
def c10_an : AnalysisHost :=
  { goto_def := fun _ => Option.none
    show_type := fun _ => some ("ty")
    docs := fun _ => Option.none
    doc_url := fun _ => Option.none
    src_url := fun _ => Option.none
    id := fun _ => Option.none }

/-- Fixture: the span reconstructed for the glob token. -/
def c10_span : Span := ⟨["", "p", "h.rs"], 4, 2, 4, 3⟩

/-- Fixture: the path cache after the glob token's lookup. -/
def c10_cache : PathCache := [("h.rs", ["", "p", "h.rs"])]

/-! Shared lemmas. -/

/-- The character-by-character escape loop of `write_span` appends exactly
the concatenation of the per-character escape sequences. -/
lemma foldl_push_char (l : List Char) (buf : String) :
    l.foldl (fun b c => b ++ push_char c) buf = buf ++ escapeChars l := by
  induction l generalizing buf with
  | nil => simp [escapeChars, String.append_empty]
  | cons c cs ih =>
    simp only [List.foldl_cons, escapeChars, ih, String.append_assoc]

/-- Flat form of `write_span`: the output is the input buffer followed by
the attributes in their fixed order, the token text and the closing tag. -/
lemma write_span_flat (buf : String) (klass : Class) (text : String)
    (title extra_class id link doc_link src_link extra : Option String) :
    write_span buf klass text title extra_class id link doc_link src_link extra =
      buf ++ "<span class='" ++ klass.rustdoc_class ++ classOut extra_class
          ++ (if link.isSome || doc_link.isSome then " src_link" else "") ++ "'"
          ++ attrOut (" id='") id ++ titleOut title ++ attrOut (" doc_url='") doc_link
          ++ attrOut (" src_url='") src_link ++ attrOut (" link='") link
          ++ extraOut extra ++ ">" ++ text ++ "</span>" := by
  cases extra_class <;> cases id <;> cases title <;> cases doc_link <;>
    cases src_link <;> cases link <;> cases extra <;>
      simp only [write_span, attrOut, titleOut, extraOut, classOut,
        foldl_push_char, Option.getD_some, Option.getD_none,
        Option.isSome_some, Option.isSome_none,
        Bool.or_true, Bool.true_or, Bool.or_false, Bool.false_or,
        Bool.false_eq_true, eq_self_iff_true,
        if_true, if_false, String.append_assoc, String.append_empty]

/-- The glob branch of `Highlighter::string`: when the span reconstruction
succeeds, a `*` operator token is emitted with the raw type-query answer as
title, the ` glob` class suffix, the positional `location` attribute, and
no id, link, doc_url or src_url. -/
lemma glob_string_eq (an : AnalysisHost) (pp : List String) (cm : Nat → Loc)
    (canon : String → Option (List String)) (h : Highlighter) (t : TokenAndSpan)
    (span : Span) (cache : PathCache) (n : Nat)
    (hs : span_from_locs canon h.path_cache (cm t.lo) (cm t.hi) = (some (span, cache), n)) :
    Highlighter.string an pp cm canon h ("*") Class.op (some t) =
      some { buf := write_span h.buf Class.op ("*") (an.show_type span)
               (some (" glob")) Option.none Option.none Option.none Option.none
               (some (globExtra (cm t.lo)))
             path_cache := cache } := by
  simp [Highlighter.string, hs]

/-- When the canonicalizer succeeds on the raw name, `span_from_locs`
returns a span. -/
lemma span_from_locs_some (canon : String → Option (List String))
    (cache : PathCache) (lo hi : Loc) (hc : (canon lo.file_name).isSome = true) :
    ((span_from_locs canon cache lo hi).1).isSome = true := by
  unfold span_from_locs
  cases hl : cache.lookup lo.file_name with
  | some p => simp
  | none =>
    cases hcn : canon lo.file_name with
    | some p => simp
    | none => rw [hcn] at hc; simp at hc

/-- When the canonicalizer is total, one `string` step never fails. -/
lemma string_some_of_canon (an : AnalysisHost) (pp : List String)
    (cm : Nat → Loc) (canon : String → Option (List String)) (h : Highlighter)
    (text : String) (klass : Class) (tas : Option TokenAndSpan)
    (hc : ∀ name, (canon name).isSome = true) :
    (Highlighter.string an pp cm canon h text klass tas).isSome = true := by
  cases klass with
  | none => simp [Highlighter.string]
  | ident =>
    cases tas with
    | none => simp [Highlighter.string]
    | some t =>
      have hsp := span_from_locs_some canon h.path_cache (cm t.lo) (cm t.hi)
        (hc (cm t.lo).file_name)
      rcases heq : span_from_locs canon h.path_cache (cm t.lo) (cm t.hi) with ⟨o, n⟩
      rw [heq] at hsp
      cases o with
      | none => simp at hsp
      | some pr =>
        rcases pr with ⟨span, cache⟩
        simp [Highlighter.string, heq]
  | op =>
    by_cases ht : text = "*"
    · subst ht
      cases tas with
      | none => simp [Highlighter.string]
      | some t =>
        have hsp := span_from_locs_some canon h.path_cache (cm t.lo) (cm t.hi)
          (hc (cm t.lo).file_name)
        rcases heq : span_from_locs canon h.path_cache (cm t.lo) (cm t.hi) with ⟨o, n⟩
        rw [heq] at hsp
        cases o with
        | none => simp at hsp
        | some pr =>
          rcases pr with ⟨span, cache⟩
          simp [Highlighter.string, heq]
    · simp [Highlighter.string, ht]
  | other s => simp [Highlighter.string]

/-- When the canonicalizer is total, the whole event stream runs to
completion. -/
lemma runEvents_some (an : AnalysisHost) (pp : List String) (cm : Nat → Loc)
    (canon : String → Option (List String))
    (hc : ∀ name, (canon name).isSome = true) :
    ∀ (events : List HEvent) (h : Highlighter),
      (runEvents an pp cm canon h events).isSome = true := by
  intro events
  induction events with
  | nil => intro h; simp [runEvents]
  | cons e rest ih =>
    intro h
    cases e with
    | enter k => exact ih _
    | exit => exact ih _
    | str text k tas =>
      have hst := string_some_of_canon an pp cm canon h text k tas hc
      rcases heq : Highlighter.string an pp cm canon h text k tas with _ | h2
      · rw [heq] at hst; simp at hst
      · simp only [runEvents, heq]
        exact ih h2

/-- C1 counterexample: with a backend whose goto_def answers the token's own
span and whose id query succeeds (id 42), the emitted span element DOES carry
a `link` attribute (`link='search:42'`), refuting the claim's "no `link`
attribute ... regardless of whether the id query for that span succeeds". -/
theorem c1_counterexample :
    highlight c1_an ["", "proj"] c1_cm c1_canon
        [HEvent.str ("x") Class.ident (some ⟨0, 1⟩)] =
      some ("<span class='ident class_id class_id_42 src_link' link='search:42'>x</span>") ∧
    (String.data (" link='")) <:+:
      (String.data ("<span class='ident class_id class_id_42 src_link' link='search:42'>x</span>")) := by
  exact ⟨by decide, by decide⟩

/-- C1 (amended): for every identifier token whose goto_def query succeeds
and returns a definition span structurally equal to the token's own span, no
definition link is derived; the link argument of the emission is exactly
`search:` + id when the id query succeeds, and absent only when the id query
also fails. -/
theorem c1_self_link_suppression (an : AnalysisHost) (pp : List String) (s : Span)
    (h : an.goto_def s = some s) :
    (identArgs an pp s).link = (an.id s).map (fun i => "search:" ++ toString i) := by
  have hg : get_link an pp s = Option.none := by simp [get_link, h]
  cases hid : an.id s <;> simp [identArgs, hg, hid]

/-- C1 witness: the amended theorem applied to the concrete self-definition
backend. -/
theorem c1_witness :
    (identArgs c1_an ["", "proj"] c1_span).link =
      (c1_an.id c1_span).map (fun i => "search:" ++ toString i) :=
  c1_self_link_suppression c1_an ["", "proj"] c1_span rfl

/-- C2 counterexample: a raw file name whose canonicalization fails does not
fall back to the raw path; the render pass aborts (the source unwraps the
canonicalization result), so the top-level render yields no markup string. -/
theorem c2_counterexample :
    highlight c2_an [] c2_cm (fun _ => Option.none)
      [HEvent.str ("x") Class.ident (some ⟨0, 1⟩)] = Option.none := rfl

/-- C2 (amended): when every raw file name canonicalizes successfully, the
top-level render function returns a complete markup string for every
tokenizable input; lookup-misses and lookup-failures of the analysis backend
never surface to its caller. -/
theorem c2_render_completes (an : AnalysisHost) (pp : List String) (cm : Nat → Loc)
    (canon : String → Option (List String)) (events : List HEvent)
    (hc : ∀ name, (canon name).isSome = true) :
    (highlight an pp cm canon events).isSome = true := by
  have h := runEvents_some an pp cm canon hc events { buf := "", path_cache := [] }
  unfold highlight
  rcases heq : runEvents an pp cm canon { buf := "", path_cache := [] } events with _ | h2
  · rw [heq] at h; simp at h
  · simp [heq]

/-- C2 witness: the amended theorem applied to a concrete always-failing
backend with a total canonicalizer. -/
theorem c2_witness :
    (highlight c2_an [] c2_cm c2_canon_ok
      [HEvent.str ("x") Class.ident (some ⟨0, 1⟩)]).isSome = true :=
  c2_render_completes c2_an [] c2_cm c2_canon_ok
    [HEvent.str ("x") Class.ident (some ⟨0, 1⟩)] (fun _ => rfl)

/-- C5: for every identifier token for which the id query succeeds but no
definition link was derived, the link argument of the emission is exactly
`search:` followed by the id. -/
theorem c5_search_link_fallback (an : AnalysisHost) (pp : List String) (s : Span)
    (i : Nat) (hi : an.id s = some i) (hl : get_link an pp s = Option.none) :
    (identArgs an pp s).link = some ("search:" ++ toString i) := by
  simp [identArgs, hi, hl]

/-- C5 witness: the theorem applied to a concrete backend with id 7 and a
failing goto_def. -/
theorem c5_witness :
    (identArgs c5_an [] c5_span).link = some ("search:" ++ toString 7) :=
  c5_search_link_fallback c5_an [] c5_span 7 rfl rfl

/-- C6: write_span emits its attributes in a fixed order for every input:
base class name, extra-class suffix if present, the clickable marker class
exactly when link or doc_url is present (not when only src_url is), then id,
escaped title, doc_url, src_url, link, the free-form extra attribute verbatim
last, followed by the token text and the closing tag. -/
theorem c6_attribute_order (buf : String) (klass : Class) (text : String)
    (title extra_class id link doc_link src_link extra : Option String) :
    write_span buf klass text title extra_class id link doc_link src_link extra =
      buf ++ "<span class='" ++ klass.rustdoc_class ++ classOut extra_class
          ++ (if link.isSome || doc_link.isSome then " src_link" else "") ++ "'"
          ++ attrOut (" id='") id ++ titleOut title ++ attrOut (" doc_url='") doc_link
          ++ attrOut (" src_url='") src_link ++ attrOut (" link='") link
          ++ extraOut extra ++ ">" ++ text ++ "</span>" :=
  write_span_flat buf klass text title extra_class id link doc_link src_link extra

/-- C7: title escaping is the per-character homomorphism mapping the six
special characters to their escape sequences and leaving every other
character unchanged, one escape sequence per character in original order
with no double-escaping; it is applied only to the title attribute and never
to the token body text. -/
theorem c7_title_escaping :
    (push_char '>' = "&gt;" ∧ push_char '<' = "&lt;" ∧ push_char '&' = "&amp;" ∧
      push_char '\'' = "&#39;" ∧ push_char '"' = "&quot;" ∧ push_char '\n' = "<br>") ∧
    (∀ c : Char, c ∉ (['>', '<', '&', '\'', '"', '\n'] : List Char) →
      push_char c = String.singleton c) ∧
    (∀ l1 l2 : List Char, escapeChars (l1 ++ l2) = escapeChars l1 ++ escapeChars l2) ∧
    (∀ (buf : String) (l : List Char),
      l.foldl (fun b c => b ++ push_char c) buf = buf ++ escapeChars l) ∧
    (∀ (buf : String) (klass : Class) (text : String) (ec id link dl sl ex : Option String),
      write_span buf klass text Option.none ec id link dl sl ex =
        buf ++ "<span class='" ++ klass.rustdoc_class ++ classOut ec
          ++ (if link.isSome || dl.isSome then " src_link" else "") ++ "'"
          ++ attrOut (" id='") id ++ attrOut (" doc_url='") dl
          ++ attrOut (" src_url='") sl ++ attrOut (" link='") link
          ++ extraOut ex ++ ">" ++ text ++ "</span>") ∧
    (∀ (buf : String) (klass : Class) (text s : String) (ec id link dl sl ex : Option String),
      write_span buf klass text (some s) ec id link dl sl ex =
        buf ++ "<span class='" ++ klass.rustdoc_class ++ classOut ec
          ++ (if link.isSome || dl.isSome then " src_link" else "") ++ "'"
          ++ attrOut (" id='") id ++ (" title='" ++ escapeChars s.data ++ "'")
          ++ attrOut (" doc_url='") dl ++ attrOut (" src_url='") sl
          ++ attrOut (" link='") link ++ extraOut ex ++ ">" ++ text ++ "</span>") := by
  refine ⟨⟨rfl, rfl, rfl, rfl, rfl, rfl⟩, ?_, ?_, ?_, ?_, ?_⟩
  · intro c hc
    simp only [List.mem_cons, List.not_mem_nil, or_false, not_or] at hc
    obtain ⟨h1, h2, h3, h4, h5, h6⟩ := hc
    unfold push_char
    split <;> simp_all
  · intro l1 l2
    induction l1 with
    | nil => rfl
    | cons c cs ih => simp [escapeChars, ih, String.append_assoc]
  · exact fun buf l => foldl_push_char l buf
  · intro buf klass text ec id link dl sl ex
    rw [write_span_flat]
    simp only [titleOut, String.append_assoc, String.append_empty]
  · intro buf klass text s ec id link dl sl ex
    rw [write_span_flat]
    simp only [titleOut, String.append_assoc]

/-- C7 witness: the non-special-character clause applied to the concrete
character a. -/
theorem c7_witness : push_char 'a' = String.singleton 'a' :=
  c7_title_escaping.2.1 'a' (by decide)

/-- C3 counterexample: with two overlay ranges registered over the same byte
range, the emitted class suffix and id are those of the LAST registered
range (class `b`, id `i2`), not the first, refuting "the first registered
overlay range". -/
theorem c3_counterexample :
    (BasicHighlighter.string c3_bh ("x") (Class.other ("kw")) (some ⟨0, 1⟩)).buf =
      "<span class='kwb' id='i2'>x</span>" ∧
    overlayScan c3_bh.spans 0 1 = (some ("b"), some ("i2")) ∧
    ¬ overlayScan c3_bh.spans 0 1 = (some ("a"), some ("i1")) :=
  ⟨by decide, by decide, by decide⟩

/-- C3 (amended): the class suffix and id applied are those of the last
registered overlay range whose start and end bytes both exactly equal the
token's byte-span; a token exactly matching no registered range (partial
overlaps included) receives no overlay class and no overlay id. -/
theorem c3_overlay_last_exact_match :
    (∀ (spans : List SpanSpan) (lo hi : Nat),
      overlayScan spans lo hi =
        match (spans.filter (fun s => s.start_byte == lo && s.end_byte == hi)).getLast? with
        | some s => (some s.klass, some s.id)
        | Option.none => (Option.none, Option.none)) ∧
    (∀ (spans : List SpanSpan) (lo hi : Nat),
      (∀ s ∈ spans, ¬(s.start_byte = lo ∧ s.end_byte = hi)) →
      overlayScan spans lo hi = (Option.none, Option.none)) := by
  have main : ∀ (spans : List SpanSpan) (lo hi : Nat),
      overlayScan spans lo hi =
        match (spans.filter (fun s => s.start_byte == lo && s.end_byte == hi)).getLast? with
        | some s => (some s.klass, some s.id)
        | Option.none => (Option.none, Option.none) := by
    intro spans lo hi
    induction spans using List.reverseRecOn with
    | nil => rfl
    | append_singleton l x ih =>
      by_cases hx : x.start_byte = lo ∧ x.end_byte = hi
      · have hb : (x.start_byte == lo && x.end_byte == hi) = true := by
          simp [hx.1, hx.2]
        have hf1 : (l ++ [x]).filter (fun s => s.start_byte == lo && s.end_byte == hi)
            = l.filter (fun s => s.start_byte == lo && s.end_byte == hi) ++ [x] := by
          simp [List.filter_append, hb]
        have hfold : overlayScan (l ++ [x]) lo hi = (some x.klass, some x.id) := by
          simp only [overlayScan, List.foldl_append, List.foldl_cons, List.foldl_nil,
            if_pos hx]
        rw [hfold, hf1, List.getLast?_concat]
      · have hb : (x.start_byte == lo && x.end_byte == hi) = false := by
          rcases not_and_or.mp hx with h | h <;> simp [h]
        have hf1 : (l ++ [x]).filter (fun s => s.start_byte == lo && s.end_byte == hi)
            = l.filter (fun s => s.start_byte == lo && s.end_byte == hi) := by
          simp [List.filter_append, hb]
        have hfold : overlayScan (l ++ [x]) lo hi = overlayScan l lo hi := by
          simp only [overlayScan, List.foldl_append, List.foldl_cons, List.foldl_nil,
            if_neg hx]
        rw [hfold, hf1]
        exact ih
  refine ⟨main, ?_⟩
  intro spans lo hi hno
  rw [main]
  have hf : spans.filter (fun s => s.start_byte == lo && s.end_byte == hi) = [] := by
    rw [List.filter_eq_nil_iff]
    intro s hs
    have := hno s hs
    simp only [Bool.and_eq_true, beq_iff_eq]
    tauto
  simp [hf]

/-- C3 witness: the no-exact-match clause applied to a token whose byte-span
partially overlaps (bytes 2-5 against a registered range 0-5). -/
theorem c3_witness :
    overlayScan [⟨0, 5, "k", "i"⟩] 2 5 = (Option.none, Option.none) :=
  c3_overlay_last_exact_match.2 [⟨0, 5, ("k"), ("i")⟩] 2 5 (by decide)

/-- C4 counterexample: for the glob `*` operator token, a type query result
that is the empty string IS rendered as an empty tooltip (`title=''`),
refuting "an empty tooltip is never rendered" for every enriched token. -/
theorem c4_counterexample :
    highlight c4_an ["", "proj"] c4_cm c4_canon
        [HEvent.str ("*") Class.op (some ⟨0, 1⟩)] =
      some ("<span class='op glob' title='' location='2:5''>*</span>") ∧
    (String.data (" title=''")) <:+:
      (String.data ("<span class='op glob' title='' location='2:5''>*</span>")) :=
  ⟨by decide, by decide⟩

/-- C4 (amended): for identifier tokens the emitted title is type, blank
line, docs when both are present and nonempty; the present one when only one
is; and no title when neither is, an empty type or docs result counting as
absent.  For the glob `*` operator token the type query result is used as
the title directly, without the empty-string filter, and docs are never
queried. -/
theorem c4_title_composition :
    (∀ (an : AnalysisHost) (pp : List String) (s : Span) (ty d : String),
      an.show_type s = some ty → ty.isEmpty = false →
      an.docs s = some d → d.isEmpty = false →
      (identArgs an pp s).title = some (ty ++ "\n\n" ++ d)) ∧
    (∀ (an : AnalysisHost) (pp : List String) (s : Span) (ty : String),
      an.show_type s = some ty → ty.isEmpty = false →
      (an.docs s = Option.none ∨ an.docs s = some ("")) →
      (identArgs an pp s).title = some ty) ∧
    (∀ (an : AnalysisHost) (pp : List String) (s : Span) (d : String),
      (an.show_type s = Option.none ∨ an.show_type s = some ("")) →
      an.docs s = some d → d.isEmpty = false →
      (identArgs an pp s).title = some d) ∧
    (∀ (an : AnalysisHost) (pp : List String) (s : Span),
      (an.show_type s = Option.none ∨ an.show_type s = some ("")) →
      (an.docs s = Option.none ∨ an.docs s = some ("")) →
      (identArgs an pp s).title = Option.none) ∧
    (∀ (an : AnalysisHost) (pp : List String) (cm : Nat → Loc)
        (canon : String → Option (List String)) (h : Highlighter) (t : TokenAndSpan)
        (span : Span) (cache : PathCache) (n : Nat),
      span_from_locs canon h.path_cache (cm t.lo) (cm t.hi) = (some (span, cache), n) →
      Highlighter.string an pp cm canon h ("*") Class.op (some t) =
        some { buf := write_span h.buf Class.op ("*") (an.show_type span)
                 (some (" glob")) Option.none Option.none Option.none Option.none
                 (some (globExtra (cm t.lo)))
               path_cache := cache }) := by
  have he : ("" : String).isEmpty = true := rfl
  refine ⟨?_, ?_, ?_, ?_, ?_⟩
  · intro an pp s ty d h1 h2 h3 h4
    cases hid : an.id s <;> simp [identArgs, h1, h2, h3, h4, hid]
  · intro an pp s ty h1 h2 h3
    rcases h3 with h3 | h3 <;> cases hid : an.id s <;>
      simp [identArgs, h1, h2, h3, he, hid]
  · intro an pp s d h1 h2 h3
    rcases h1 with h1 | h1 <;> cases hid : an.id s <;>
      simp [identArgs, h1, h2, h3, he, hid]
  · intro an pp s h1 h2
    rcases h1 with h1 | h1 <;> rcases h2 with h2 | h2 <;> cases hid : an.id s <;>
      simp [identArgs, h1, h2, he, hid]
  · exact fun an pp cm canon h t span cache n hs =>
      glob_string_eq an pp cm canon h t span cache n hs

/-- C4 witness: the both-present clause applied to a backend answering type
T and docs D. -/
theorem c4_witness :
    (identArgs c4w_an [] c4w_span).title = some (("T") ++ "\n\n" ++ ("D")) :=
  c4_title_composition.1 c4w_an [] c4w_span ("T") ("D") rfl rfl rfl rfl

/-- C8: a definition-link target is encoded as
file:line_start:col_start:line_end:col_end with every coordinate the 0-based
span coordinate plus one; the file path is made project-relative when the
project root is a prefix of the definition span's path, else the raw path is
used; and the span coordinates were themselves derived from the lexer's
1-based lines minus one and its 0-based columns unchanged, so the encoded
line is the lexer's line back again. -/
theorem c8_link_encoding :
    (∀ (an : AnalysisHost) (pp : List String) (s ds : Span),
      an.goto_def s = some ds → s ≠ ds → pp.isPrefixOf ds.file_name = true →
      get_link an pp s =
        some (pathDisplay (ds.file_name.drop pp.length) ++ ":"
          ++ toString (ds.line_start + 1) ++ ":" ++ toString (ds.column_start + 1)
          ++ ":" ++ toString (ds.line_end + 1) ++ ":" ++ toString (ds.column_end + 1))) ∧
    (∀ (an : AnalysisHost) (pp : List String) (s ds : Span),
      an.goto_def s = some ds → s ≠ ds → pp.isPrefixOf ds.file_name = false →
      get_link an pp s =
        some (pathDisplay ds.file_name ++ ":" ++ toString (ds.line_start + 1) ++ ":"
          ++ toString (ds.column_start + 1) ++ ":" ++ toString (ds.line_end + 1)
          ++ ":" ++ toString (ds.column_end + 1))) ∧
    (∀ (canon : String → Option (List String)) (cache : PathCache) (lo hi : Loc)
        (sp : Span) (cache2 : PathCache) (n : Nat),
      span_from_locs canon cache lo hi = (some (sp, cache2), n) →
      sp.line_start = lo.line - 1 ∧ sp.column_start = lo.col ∧
      sp.line_end = hi.line - 1 ∧ sp.column_end = hi.col) ∧
    (∀ (canon : String → Option (List String)) (cache : PathCache) (lo hi : Loc)
        (sp : Span) (cache2 : PathCache) (n : Nat),
      1 ≤ lo.line → 1 ≤ hi.line →
      span_from_locs canon cache lo hi = (some (sp, cache2), n) →
      sp.line_start + 1 = lo.line ∧ sp.line_end + 1 = hi.line) := by
  have coords : ∀ (canon : String → Option (List String)) (cache : PathCache)
      (lo hi : Loc) (sp : Span) (cache2 : PathCache) (n : Nat),
      span_from_locs canon cache lo hi = (some (sp, cache2), n) →
      sp.line_start = lo.line - 1 ∧ sp.column_start = lo.col ∧
      sp.line_end = hi.line - 1 ∧ sp.column_end = hi.col := by
    intro canon cache lo hi sp cache2 n hs
    unfold span_from_locs at hs
    split at hs
    · simp only [Prod.mk.injEq, Option.some.injEq] at hs
      obtain ⟨⟨h1, h2⟩, h3⟩ := hs
      subst h1
      exact ⟨rfl, rfl, rfl, rfl⟩
    · split at hs
      · simp only [Prod.mk.injEq, Option.some.injEq] at hs
        obtain ⟨⟨h1, h2⟩, h3⟩ := hs
        subst h1
        exact ⟨rfl, rfl, rfl, rfl⟩
      · simp at hs
  refine ⟨?_, ?_, coords, ?_⟩
  · intro an pp s ds h1 h2 h3
    have hp : pp <+: ds.file_name := List.isPrefixOf_iff_prefix.mp h3
    simp [get_link, h1, h2, stripPrefixPath, hp]
  · intro an pp s ds h1 h2 h3
    have hp : ¬ pp <+: ds.file_name := by
      rw [← List.isPrefixOf_iff_prefix, h3]
      exact Bool.false_ne_true
    simp [get_link, h1, h2, stripPrefixPath, hp]
  · intro canon cache lo hi sp cache2 n hlo hhi hs
    obtain ⟨ha, hb, hc, hd⟩ := coords canon cache lo hi sp cache2 n hs
    constructor <;> omega

/-- C8 witness: the project-relative clause applied to a definition at
/proj/f.rs lines 0-0 columns 2-5 under project root /proj, encoding as
f.rs:1:3:1:6. -/
theorem c8_witness :
    get_link c8_an ["", "proj"] c8_span = some ("f.rs:1:3:1:6") := by
  have h := c8_link_encoding.1 c8_an ["", "proj"] c8_span c8_ds rfl
    (by decide) (by decide)
  exact h.trans (by decide)

/-- C9: the path cache canonicalizes at most once per distinct raw file
name: a cache hit performs no canonicalization (count 0) and leaves the
cache unchanged; a miss canonicalizes once and memoizes under the raw name;
and any later call with the same raw name returns the cached path with no
canonicalization and no cache modification. -/
theorem c9_path_cache_memoization :
    (∀ (canon : String → Option (List String)) (cache : PathCache) (lo hi : Loc)
        (p : List String), cache.lookup lo.file_name = some p →
      span_from_locs canon cache lo hi =
        (some ({ file_name := p, line_start := lo.line - 1, column_start := lo.col,
                 line_end := hi.line - 1, column_end := hi.col }, cache), 0)) ∧
    (∀ (canon : String → Option (List String)) (cache : PathCache) (lo hi : Loc)
        (p : List String), cache.lookup lo.file_name = Option.none →
      canon lo.file_name = some p →
      span_from_locs canon cache lo hi =
        (some ({ file_name := p, line_start := lo.line - 1, column_start := lo.col,
                 line_end := hi.line - 1, column_end := hi.col },
               (lo.file_name, p) :: cache), 1)) ∧
    (∀ (canon : String → Option (List String)) (cache : PathCache)
        (lo hi lo2 hi2 : Loc) (p : List String), lo2.file_name = lo.file_name →
      span_from_locs canon ((lo.file_name, p) :: cache) lo2 hi2 =
        (some ({ file_name := p, line_start := lo2.line - 1, column_start := lo2.col,
                 line_end := hi2.line - 1, column_end := hi2.col },
               (lo.file_name, p) :: cache), 0)) := by
  refine ⟨?_, ?_, ?_⟩
  · intro canon cache lo hi p h
    simp [span_from_locs, h]
  · intro canon cache lo hi p h1 h2
    simp [span_from_locs, h1, h2]
  · intro canon cache lo hi lo2 hi2 p hname
    simp [span_from_locs, List.lookup, hname]

/-- C9 witness: the cache-hit clause applied with a canonicalizer that
always fails, showing the hit never touches it. -/
theorem c9_witness :
    span_from_locs (fun _ => Option.none) [("f.rs", ["", "p", "f.rs"])]
        ⟨"f.rs", 2, 0⟩ ⟨"f.rs", 2, 3⟩ =
      (some ({ file_name := ["", "p", "f.rs"], line_start := 1, column_start := 0,
               line_end := 1, column_end := 3 }, [("f.rs", ["", "p", "f.rs"])]), 0) := by
  have h := c9_path_cache_memoization.1 (fun _ => Option.none)
    [("f.rs", ["", "p", "f.rs"])] ⟨"f.rs", 2, 0⟩ ⟨"f.rs", 2, 3⟩ ["", "p", "f.rs"] rfl
  exact h

/-- C10: for every `*` operator token with location metadata, the span is
emitted with the extra class ` glob`, no id and no link, and the free-form
extra attribute is exactly `location='L:C''` where L is the lexer's 1-based
line not decremented, C is the 0-based column plus one, and the text ends in
two consecutive apostrophes. -/
theorem c10_glob_location_attr :
    (∀ (an : AnalysisHost) (pp : List String) (cm : Nat → Loc)
        (canon : String → Option (List String)) (h : Highlighter) (t : TokenAndSpan)
        (span : Span) (cache : PathCache) (n : Nat),
      span_from_locs canon h.path_cache (cm t.lo) (cm t.hi) = (some (span, cache), n) →
      Highlighter.string an pp cm canon h ("*") Class.op (some t) =
        some { buf := write_span h.buf Class.op ("*") (an.show_type span)
                 (some (" glob")) Option.none Option.none Option.none Option.none
                 (some (globExtra (cm t.lo)))
               path_cache := cache }) ∧
    (∀ lo : Loc, globExtra lo =
      "location='" ++ toString lo.line ++ ":" ++ toString (lo.col + 1) ++ "'" ++ "'") := by
  refine ⟨?_, ?_⟩
  · exact fun an pp cm canon h t span cache n hs =>
      glob_string_eq an pp cm canon h t span cache n hs
  · intro lo
    have h2 : ("'" : String) ++ "'" = "''" := rfl
    simp only [globExtra, String.append_assoc, h2]

/-- C10 witness: the glob emission clause applied to a concrete token at
lexer line 5, column 2. -/
theorem c10_witness :
    Highlighter.string c10_an [] c10_cm c10_canon { buf := "", path_cache := [] }
        ("*") Class.op (some ⟨0, 1⟩) =
      some { buf := write_span "" Class.op ("*") (c10_an.show_type c10_span)
               (some (" glob")) Option.none Option.none Option.none Option.none
               (some (globExtra (c10_cm 0)))
             path_cache := c10_cache } :=
  c10_glob_location_attr.1 c10_an [] c10_cm c10_canon { buf := "", path_cache := [] }
    ⟨0, 1⟩ c10_span c10_cache 1 rfl

end Rustw
